import Mathlib

/-!
# kasir-api: checkout and sales report

A shallow embedding of `repositories/transaction_repository.go`
(`CreateTransaction`) and `repositories/report_repository.go`
(`GetSalesSummary`) together with the PostgreSQL statements they issue.

Modelling conventions.

* A Go `int` is a 64-bit two's complement integer: its values are carried as
  `Int` and the result of every Go multiplication and addition is wrapped
  into the 64-bit range by `wrapInt`. Arithmetic done by the store (the stock
  deduction, `SUM`, `COUNT`) is exact; a value out of a column's range makes
  the store refuse the statement.
* A point in time (`time.Time`, `created_at`) is an `Int`: nanoseconds since
  some epoch.
* A table with a primary key is a finite map keyed by it (`products`); tables
  that are only appended to and scanned are lists of rows.
* Every statement `CreateTransaction` sends may be refused by the store or its
  driver (lost connection, constraint violation, value out of range): a
  `Faults` oracle says which ones are. The store that answers every statement
  is `reliable`. `GetSalesSummary` is embedded over an arbitrary store handle.
* One call runs alone: the row locks taken by `FOR UPDATE` serialize
  concurrent checkouts and have no effect on a single one.
-/

namespace Kasir

/-! ## Stored data -/

/-- Modelled from the spec: one row of table `products` without its key
(the schema is not part of the sources; columns as selected by
`SELECT id, name, price, stock FROM products`). -/
structure ProductRow where
  name : String
  price : Int
  stock : Int
deriving DecidableEq, Repr

/-- Modelled from the spec: one row of table `transactions`
(`id`, `total_amount`, `created_at`). -/
structure TransactionRow where
  id : Int
  total_amount : Int
  created_at : Int
deriving DecidableEq, Repr

/-- Modelled from the spec: one row of table `transaction_details`, with the
columns written by the `INSERT INTO transaction_details` statement. -/
structure TransactionDetailRow where
  transaction_id : Int
  product_id : Int
  quantity : Int
  subtotal : Int
deriving DecidableEq, Repr

/-- The data store: `products` keyed by `id` (primary key), the two ledger
tables, and the sequence behind `transactions.id`. -/
structure DB where
  products : Int → Option ProductRow
  transactions : List TransactionRow
  transaction_details : List TransactionDetailRow
  transactions_id_seq : Int

/-! ## Go models used by the checkout -/

/-- Modelled from the spec: `models.CheckoutItem` (its declaration is not in
the sources), with the two fields `CreateTransaction` reads. -/
structure CheckoutItem where
  ProductID : Int
  Quantity : Int
deriving DecidableEq, Repr

/-- Modelled from the spec: `models.TransactionDetail` (its declaration is not
in the sources), with the fields `CreateTransaction` writes. -/
structure TransactionDetail where
  TransactionID : Int
  ProductID : Int
  ProductName : String
  Quantity : Int
  Subtotal : Int
deriving DecidableEq, Repr

/-- Modelled from the spec: `models.Transaction` (its declaration is not in
the sources), with the fields `CreateTransaction` fills in. -/
structure Transaction where
  ID : Int
  TotalAmount : Int
  Details : List TransactionDetail
deriving DecidableEq, Repr

/-! ## Errors and result rows (`database/sql`) -/

/-- A Go `error` as the two functions meet or build it: the sentinel
`sql.ErrNoRows`; a failure reported by the store or its driver; and the two
errors `CreateTransaction` builds itself, each with the arguments of its
`fmt.Errorf` call:
`"product id %d not found"` and
`"stock not enough for product %s (available: %d, requested: %d)"`. -/
inductive Error where
  | ErrNoRows
  | driver (msg : String)
  | productNotFound (productID : Int)
  | stockNotEnough (productName : String) (available : Int) (requested : Int)
deriving DecidableEq, Repr

/-- The message of the error (`err.Error()`). -/
def Error.Message : Error → String
  | .ErrNoRows => "sql: no rows in result set"
  | .driver msg => msg
  | .productNotFound productID => "product id " ++ toString productID ++ " not found"
  | .stockNotEnough productName available requested =>
    "stock not enough for product " ++ productName ++ " (available: " ++ toString available ++
      ", requested: " ++ toString requested ++ ")"

/-- What `QueryRow(...)` returns (`*sql.Row`): the statement failed, or it
produced no row, or a first row, after which closing the result set may still
report an error. -/
inductive Row (α : Type) where
  | failed (err : Error)
  | noRows
  | row (r : α) (closeErr : Option Error)

/-- `(*sql.Row).Scan(dest...)`: a failed statement returns its error and an
empty result `sql.ErrNoRows`, both without touching the destinations;
otherwise the first row is stored and the error of closing is returned.
The result is the destinations after the call and the returned error. -/
def Row.Scan {α : Type} (r : Row α) (dest : α) : α × Option Error :=
  match r with
  | .failed err => (dest, some err)
  | .noRows => (dest, some .ErrNoRows)
  | .row v closeErr => (v, closeErr)

/-! ## The unit of work (`*sql.Tx`) -/

/-- The failures of the store during one call: the statement sent as number
`k` of the call is refused with the given driver message, or answered. -/
abbrev Faults := Nat → Option String

/-- The store that answers every statement. -/
def reliable : Faults := fun _ => none

/-- A database transaction: `committed` is the durable state, `work` the state
as the statements of this unit of work see it; `issued` counts the statements
sent so far, `faults` says which of them the store refuses. -/
structure Tx where
  committed : DB
  work : DB
  faults : Faults
  issued : Nat

/-- The driver's answer to the statement being sent: a refusal, or none. -/
def Tx.answer (tx : Tx) : Option String := tx.faults tx.issued

/-- The unit of work after one more statement was sent. -/
def Tx.next (tx : Tx) : Tx := { tx with issued := tx.issued + 1 }

/-- `db.Begin()`. -/
def Begin (db : DB) (faults : Faults) : Except Error Tx :=
  match faults 0 with
  | some msg => .error (.driver msg)
  | none => .ok { committed := db, work := db, faults := faults, issued := 1 }

/-- `tx.Commit()`: unless the store refuses, the work becomes durable. -/
def Tx.Commit (tx : Tx) : Tx × Option Error :=
  match tx.answer with
  | some msg => (tx.next, some (.driver msg))
  | none => ({ tx.next with committed := tx.work }, none)

/-- `tx.Rollback()`: the work is discarded. -/
def Tx.Rollback (tx : Tx) : Tx := { tx.next with work := tx.committed }

/-- `tx.QueryRow("SELECT id, name, price, stock FROM products WHERE id = $1
FOR UPDATE", id)`. -/
def Tx.QueryRowProduct (tx : Tx) (id : Int) : Tx × Row (Int × String × Int × Int) :=
  match tx.answer with
  | some msg => (tx.next, .failed (.driver msg))
  | none =>
    match tx.work.products id with
    | none => (tx.next, .noRows)
    | some p => (tx.next, .row (id, p.name, p.price, p.stock) none)

/-- The effect of `UPDATE products SET stock = stock - $1 WHERE id = $2`. -/
def Tx.updateStock (tx : Tx) (quantity : Int) (productID : Int) : Tx :=
  { tx with
    work := { tx.work with
      products := fun i =>
        if i = productID then
          match tx.work.products i with
          | none => none
          | some p => some { p with stock := p.stock - quantity }
        else tx.work.products i } }

/-- `tx.Exec("UPDATE products SET stock = stock - $1 WHERE id = $2", quantity,
productID)`: the returned error. -/
def Tx.ExecUpdateStock (tx : Tx) (quantity : Int) (productID : Int) : Tx × Option Error :=
  match tx.answer with
  | some msg => (tx.next, some (.driver msg))
  | none => (tx.next.updateStock quantity productID, none)

/-- `tx.QueryRow("INSERT INTO transactions (total_amount) VALUES ($1)
RETURNING id", totalAmount)`: the id comes from the sequence, `created_at`
from the column default (the store's clock `now`). Drawing from a sequence
is not undone by a rollback, so it advances in the durable state as well. -/
def Tx.QueryRowInsertTransaction (tx : Tx) (now : Int) (totalAmount : Int) : Tx × Row Int :=
  match tx.answer with
  | some msg => (tx.next, .failed (.driver msg))
  | none =>
    ({ tx.next with
       committed := { tx.committed with
         transactions_id_seq := tx.work.transactions_id_seq + 1 }
       work := { tx.work with
         transactions := tx.work.transactions ++
           [{ id := tx.work.transactions_id_seq, total_amount := totalAmount,
              created_at := now }]
         transactions_id_seq := tx.work.transactions_id_seq + 1 } },
     .row tx.work.transactions_id_seq none)

/-- `tx.Prepare("INSERT INTO transaction_details (transaction_id, product_id,
quantity, subtotal) VALUES ($1, $2, $3, $4)")`: the returned error. -/
def Tx.Prepare (tx : Tx) : Tx × Option Error :=
  match tx.answer with
  | some msg => (tx.next, some (.driver msg))
  | none => (tx.next, none)

/-- `stmt.Exec(transactionID, productID, quantity, subtotal)` on the prepared
insert: the returned error. -/
def Tx.ExecInsertDetail (tx : Tx) (transactionID productID quantity subtotal : Int) :
    Tx × Option Error :=
  match tx.answer with
  | some msg => (tx.next, some (.driver msg))
  | none =>
    ({ tx.next with
       work := { tx.work with
         transaction_details := tx.work.transaction_details ++
           [{ transaction_id := transactionID, product_id := productID,
              quantity := quantity, subtotal := subtotal }] } },
     none)

/-! ## `CreateTransaction` -/

/-- The value a Go `int` (64 bits, two's complement) holds after an
arithmetic result `x`: `x` reduced modulo `2^64` into `[-2^63, 2^63)`. -/
def wrapInt (x : Int) : Int :=
  (x + 9223372036854775808) % 18446744073709551616 - 9223372036854775808

/-- The loop `for _, item := range items` of `CreateTransaction`, with its
running `totalAmount` and `details`; an early `return nil, err` is the
`Except.error` result, paired with the unit of work as it stands then. -/
def processItems (tx : Tx) (totalAmount : Int) (details : List TransactionDetail) :
    List CheckoutItem → Tx × Except Error (Int × List TransactionDetail)
  | [] => (tx, .ok (totalAmount, details))
  | item :: rest =>
    match tx.QueryRowProduct item.ProductID with
    | (tx, row) =>
      match row.Scan (0, "", 0, 0) with
      | (_, some .ErrNoRows) => (tx, .error (.productNotFound item.ProductID))
      | (_, some err) => (tx, .error err)
      | ((productID, productName, price, stock), none) =>
        if stock < item.Quantity then
          (tx, .error (.stockNotEnough productName stock item.Quantity))
        else
          let subtotal := wrapInt (item.Quantity * price)
          let totalAmount := wrapInt (totalAmount + subtotal)
          match tx.ExecUpdateStock item.Quantity productID with
          | (tx, some err) => (tx, .error err)
          | (tx, none) =>
            processItems tx totalAmount
              (details ++ [{ TransactionID := 0, ProductID := productID,
                             ProductName := productName, Quantity := item.Quantity,
                             Subtotal := subtotal }]) rest

/-- The loop `for i := range details`: stamp each detail with the transaction
id and insert it. Returns the unit of work and the stamped details, or the
error of the insert that failed. -/
def insertDetails (tx : Tx) (transactionID : Int) :
    List TransactionDetail → Tx × Except Error (List TransactionDetail)
  | [] => (tx, .ok [])
  | d :: rest =>
    let d := { d with TransactionID := transactionID }
    match tx.ExecInsertDetail transactionID d.ProductID d.Quantity d.Subtotal with
    | (tx, some err) => (tx, .error err)
    | (tx, none) =>
      match insertDetails tx transactionID rest with
      | (tx, .error err) => (tx, .error err)
      | (tx, .ok ds) => (tx, .ok (d :: ds))

/-- The body of `CreateTransaction` between `Begin` and the deferred function:
returns the unit of work at the point of return, the returned value, and the
flag `committed`. -/
def createTransactionBody (tx : Tx) (now : Int) (items : List CheckoutItem) :
    Tx × Except Error Transaction × Bool :=
  match processItems tx 0 [] items with
  | (tx, .error err) => (tx, .error err, false)
  | (tx, .ok (totalAmount, details)) =>
    match tx.QueryRowInsertTransaction now totalAmount with
    | (tx, row) =>
      match row.Scan 0 with
      | (_, some err) => (tx, .error err, false)
      | (transactionID, none) =>
        match tx.Prepare with
        | (tx, some err) => (tx, .error err, false)
        | (tx, none) =>
          match insertDetails tx transactionID details with
          | (tx, .error err) => (tx, .error err, false)
          | (tx, .ok details) =>
            match tx.Commit with
            | (tx, some err) => (tx, .error err, false)
            | (tx, none) =>
              (tx, .ok { ID := transactionID, TotalAmount := totalAmount, Details := details },
                true)

/-- `CreateTransaction`: begin, run the body, then the deferred function
(`if !committed then tx.Rollback()`). The result is the store after the call
and the returned `(*Transaction, error)`. `faults` are the failures of the
store during the call, `now` is the store's clock, used for `created_at`. -/
def CreateTransaction (db : DB) (faults : Faults) (now : Int) (items : List CheckoutItem) :
    DB × Except Error Transaction :=
  match Begin db faults with
  | .error err => (db, .error err)
  | .ok tx =>
    match createTransactionBody tx now items with
    | (tx, result, committed) =>
      let tx := if !committed then tx.Rollback else tx
      (tx.committed, result)

/-! ## Go models and library types used by the report -/

/-- The struct `models.BestSellerProduct`. -/
structure BestSellerProduct where
  Name : String
  Quantity : Int
deriving DecidableEq, Repr

/-- The struct `models.SalesSummary`; a nil `ProdukTerlaris` is `none`. -/
structure SalesSummary where
  TotalRevenue : Int
  TotalTransaksi : Int
  ProdukTerlaris : Option BestSellerProduct
deriving DecidableEq, Repr

/-- The type `sql.NullString`. -/
structure NullString where
  Valid : Bool
  String : String
deriving DecidableEq, Repr

/-- The type `sql.NullInt64`. -/
structure NullInt64 where
  Valid : Bool
  Int64 : Int
deriving DecidableEq, Repr

/-- The handle `repo.db` as `GetSalesSummary` uses it: `QueryRow` with
`baseQuery` and with `bestSellerQuery`, each given `start` and `end`. -/
structure SqlDB where
  QueryRowBase : Int → Int → Row (Int × Int)
  QueryRowBestSeller : Int → Int → Row (NullString × NullInt64)

/-- The struct `ReportRepository`. -/
structure ReportRepository where
  db : SqlDB

/-- The clock and calendar of the server: `time.Now()` and, for an instant
`now`, `time.Date(now.Year(), now.Month(), now.Day(), 0, 0, 0, 0, now.Location())`. -/
structure Clock where
  Now : Int
  Midnight : Int → Int

/-- The constant `time.Hour`, in nanoseconds. -/
def Hour : Int := 3600 * 1000000000

/-! ## `GetSalesSummary` -/

/-- The window `(start, end)` chosen by `GetSalesSummary`: today when a bound
is nil, the given bounds otherwise. -/
def reportWindow (clock : Clock) (startDate endDate : Option Int) : Int × Int :=
  match startDate, endDate with
  | some s, some e => (s, e)
  | _, _ =>
    let now := clock.Now
    let start := clock.Midnight now
    (start, start + 24 * Hour)

/-- `GetSalesSummary`: the returned `(*SalesSummary, error)`. -/
def GetSalesSummary (repo : ReportRepository) (clock : Clock)
    (startDate endDate : Option Int) : Except Error SalesSummary :=
  let summary : SalesSummary := ⟨0, 0, none⟩
  let (start, end_) := reportWindow clock startDate endDate
  match (repo.db.QueryRowBase start end_).Scan (summary.TotalRevenue, summary.TotalTransaksi) with
  | (_, some err) => .error err
  | ((totalRevenue, totalTransaksi), none) =>
    let summary := { summary with TotalRevenue := totalRevenue, TotalTransaksi := totalTransaksi }
    match (repo.db.QueryRowBestSeller start end_).Scan (⟨false, ""⟩, ⟨false, 0⟩) with
    | ((name, qty), err) =>
      if err = some .ErrNoRows then .ok summary
      else if !name.Valid || !qty.Valid then .ok summary
      else
        match err with
        | some e => .error e
        | none =>
          .ok { summary with ProdukTerlaris := some ⟨name.String, qty.Int64⟩ }

/-! ## The two report statements on the store -/

/-- The condition `x BETWEEN a AND b`. -/
def between (x a b : Int) : Bool := decide (a ≤ x) && decide (x ≤ b)

/-- The statement `baseQuery`:
`SELECT COALESCE(SUM(total_amount), 0), COUNT(id) FROM transactions
WHERE created_at BETWEEN $1 AND $2`; always one row. -/
def baseQuery (db : DB) (start end_ : Int) : Int × Int :=
  let rows := db.transactions.filter fun t => between t.created_at start end_
  ((rows.map fun t => t.total_amount).sum, rows.length)

/-- The rows `(p.name, td.quantity)` of
`FROM transaction_details td JOIN products p ON p.id = td.product_id
JOIN transactions t ON t.id = td.transaction_id
WHERE t.created_at BETWEEN $1 AND $2`. -/
def bestSellerJoin (db : DB) (start end_ : Int) : List (String × Int) :=
  db.transaction_details.flatMap fun td =>
    match db.products td.product_id with
    | none => []
    | some p =>
      (db.transactions.filter fun t =>
        decide (t.id = td.transaction_id) && between t.created_at start end_).map
        fun _ => (p.name, td.quantity)

/-- The value `SUM(td.quantity)` of the group of `name`. -/
def soldByName (rows : List (String × Int)) (name : String) : Int :=
  ((rows.filter fun r => decide (r.1 = name)).map fun r => r.2).sum

/-- The clause `GROUP BY p.name` with the select list
`p.name, SUM(td.quantity) AS qty_terjual`: one row per name. -/
def groupByName (rows : List (String × Int)) : List (String × Int) :=
  (rows.map fun r => r.1).dedup.map fun name => (name, soldByName rows name)

/-- The order of `ORDER BY qty_terjual DESC`: `a` may come before `b`. -/
def qtyDesc (a b : String × Int) : Prop := b.2 ≤ a.2

instance qtyDesc_decidable : DecidableRel qtyDesc :=
  fun a b => inferInstanceAs (Decidable (b.2 ≤ a.2))

instance qtyDesc_total : IsTotal (String × Int) qtyDesc :=
  ⟨fun a b => le_total b.2 a.2⟩

instance qtyDesc_trans : IsTrans (String × Int) qtyDesc :=
  ⟨fun _ _ _ hab hbc => le_trans hbc hab⟩

/-- The clause `ORDER BY qty_terjual DESC`. The order among equal quantities
is left open by SQL; here it is the order of a stable sort. -/
def orderByQtyDesc (groups : List (String × Int)) : List (String × Int) :=
  groups.insertionSort qtyDesc

/-- The statement `bestSellerQuery`: join, group, order, `LIMIT 1`. -/
def bestSellerQuery (db : DB) (start end_ : Int) : List (String × Int) :=
  (orderByQtyDesc (groupByName (bestSellerJoin db start end_))).take 1

/-- The store as a handle that answers both statements without failure. -/
def DB.handle (db : DB) : SqlDB where
  QueryRowBase := fun start end_ => .row (baseQuery db start end_) none
  QueryRowBestSeller := fun start end_ =>
    match bestSellerQuery db start end_ with
    | [] => .noRows
    | (name, qty) :: _ => .row (⟨true, name⟩, ⟨true, qty⟩) none

/-! ## Example stores -/

/-- Product A (id 1): price 10, stock 5; nothing sold yet. -/
def exampleDB : DB where
  products := fun i => if i = 1 then some { name := "A", price := 10, stock := 5 } else none
  transactions := []
  transaction_details := []
  transactions_id_seq := 1

/-- The same product A under id 2. -/
def exampleDB2 : DB where
  products := fun i => if i = 2 then some { name := "A", price := 10, stock := 5 } else none
  transactions := []
  transaction_details := []
  transactions_id_seq := 1

/-- A ledger with one sale of 30 made at instant 10. -/
def ledgerDB : DB where
  products := fun i => if i = 1 then some { name := "A", price := 10, stock := 2 } else none
  transactions := [⟨1, 30, 10⟩]
  transaction_details := [⟨1, 1, 3, 30⟩]
  transactions_id_seq := 2

/-- Two products named Kopi (ids 1 and 2) and one named Teh (id 3); one sale at
instant 5 of 3 + 3 Kopi and 5 Teh. -/
def sameNameDB : DB where
  products := fun i =>
    if i = 1 then some { name := "Kopi", price := 10, stock := 7 }
    else if i = 2 then some { name := "Kopi", price := 12, stock := 7 }
    else if i = 3 then some { name := "Teh", price := 5, stock := 5 }
    else none
  transactions := [⟨1, 91, 5⟩]
  transaction_details := [⟨1, 1, 3, 30⟩, ⟨1, 2, 3, 36⟩, ⟨1, 3, 5, 25⟩]
  transactions_id_seq := 2

/-- A clock: instant 0, every day starting at instant 0. -/
def exampleClock : Clock where
  Now := 0
  Midnight := fun _ => 0

/-- A handle whose first statement answers (30, 1) and whose best-seller
statement fails in the driver. -/
def brokenBestSellerDB : SqlDB where
  QueryRowBase := fun _ _ => .row (30, 1) none
  QueryRowBestSeller := fun _ _ => .failed (.driver "connection reset by peer")

/-- A handle whose first statement fails in the driver. -/
def brokenBaseDB : SqlDB where
  QueryRowBase := fun _ _ => .failed (.driver "connection reset by peer")
  QueryRowBestSeller := fun _ _ => .noRows

/-- A product (id 1) priced 2^62, stock 5. -/
def costlyDB : DB where
  products := fun i =>
    if i = 1 then some { name := "A", price := 4611686018427387904, stock := 5 } else none
  transactions := []
  transaction_details := []
  transactions_id_seq := 1

/-- A ledger with one sale of 30 made at instant 20. -/
def ledgerDB2 : DB where
  products := fun i => if i = 1 then some { name := "A", price := 10, stock := 2 } else none
  transactions := [⟨1, 30, 20⟩]
  transaction_details := [⟨1, 1, 3, 30⟩]
  transactions_id_seq := 2

/-! ## Auxiliary notions for the checkout theorems -/

/-- Sum of the quantities the cart `items` requests for product `pid`. -/
def requested (pid : Int) (items : List CheckoutItem) : Int :=
  ((items.filter fun it => decide (it.ProductID = pid)).map fun it => it.Quantity).sum

/-- The `products` table with every stock reduced by what `items` requests. -/
def deductStock (products : Int → Option ProductRow) (items : List CheckoutItem) :
    Int → Option ProductRow := fun i =>
  match products i with
  | none => none
  | some p => some { p with stock := p.stock - requested i items }

/-- The item `item`, reached after the items `pre` of the same cart were
deducted, is turned down: its product is missing, or the stock left is less
than the quantity asked. -/
def Refused (products : Int → Option ProductRow) (pre : List CheckoutItem)
    (item : CheckoutItem) : Prop :=
  match products item.ProductID with
  | none => True
  | some p => p.stock - requested item.ProductID pre < item.Quantity

/-- The detail `CreateTransaction` records for `item` before it is stamped. -/
def detailFor (products : Int → Option ProductRow) (item : CheckoutItem) : TransactionDetail :=
  match products item.ProductID with
  | none => ⟨0, item.ProductID, "", item.Quantity, 0⟩
  | some p => ⟨0, item.ProductID, p.name, item.Quantity, wrapInt (item.Quantity * p.price)⟩

/-- The value `x` fits a Go `int`. -/
def InInt64 (x : Int) : Prop :=
  -9223372036854775808 ≤ x ∧ x < 9223372036854775808

/-- The running total of the loop: `totalAmount += subtotal` for each
subtotal in turn, in Go arithmetic. -/
def addAll (totalAmount : Int) (subtotals : List Int) : Int :=
  subtotals.foldl (fun t s => wrapInt (t + s)) totalAmount

/-- Following the specification's words: the window `[windowStart, windowEnd)`
holds no transaction. -/
def specWindowEmpty (db : DB) (windowStart windowEnd : Int) : Prop :=
  ∀ t ∈ db.transactions, ¬ (windowStart ≤ t.created_at ∧ t.created_at < windowEnd)

/-- The unit of work right after a `Begin` that the store answered. -/
def startTx (db : DB) (faults : Faults) : Tx :=
  { committed := db, work := db, faults := faults, issued := 1 }

/-- The row of `transaction_details` written for a detail. -/
def detailRow (d : TransactionDetail) : TransactionDetailRow :=
  ⟨d.TransactionID, d.ProductID, d.Quantity, d.Subtotal⟩

/-- The detail `d` stamped with the transaction id. -/
def stamp (transactionID : Int) (d : TransactionDetail) : TransactionDetail :=
  { d with TransactionID := transactionID }

/-- The three tables of `a` are those of `b`. -/
def SameTables (a b : DB) : Prop :=
  a.products = b.products ∧ a.transactions = b.transactions ∧
    a.transaction_details = b.transaction_details

/-- Every stock of the store is non-negative. -/
def NonNegStock (db : DB) : Prop :=
  ∀ pid p, db.products pid = some p → 0 ≤ p.stock

/-- A sequence of checkouts, each with the failures of the store during the
call, the clock reading at its time, and its cart. -/
def runCheckouts (db : DB) : List (Faults × Int × List CheckoutItem) → DB
  | [] => db
  | (faults, now, items) :: rest => runCheckouts (CreateTransaction db faults now items).1 rest

/-! ## Auxiliary notions for the report theorems -/

/-- Following the specification's words: the transactions created within the
half-open window, `windowStart <= created_at < windowEnd`. -/
def specHalfOpenWindow (db : DB) (windowStart windowEnd : Int) : List TransactionRow :=
  db.transactions.filter fun t =>
    decide (windowStart ≤ t.created_at) && decide (t.created_at < windowEnd)

/-- The transactions created within the closed window,
`start <= created_at <= end`. -/
def closedWindow (db : DB) (start end_ : Int) : List TransactionRow :=
  db.transactions.filter fun t => decide (start ≤ t.created_at) && decide (t.created_at ≤ end_)

/-- Following the specification's words: the summed detail quantity of the
product of identity `pid` among the details whose parent transaction falls in
the window (taken closed, as the statements take it). -/
def specSoldByProduct (db : DB) (start end_ : Int) (pid : Int) : Int :=
  ((db.transaction_details.filter fun td =>
      decide (td.product_id = pid) &&
        db.transactions.any fun t =>
          decide (t.id = td.transaction_id) &&
            (decide (start ≤ t.created_at) && decide (t.created_at ≤ end_))).map
    fun td => td.quantity).sum

/-! ## Lemmas on Go arithmetic -/

theorem wrapInt_of_inInt64 {x : Int} (h : InInt64 x) : wrapInt x = x := by
  unfold InInt64 at h
  unfold wrapInt
  omega

theorem wrapInt_idem (x : Int) : wrapInt (wrapInt x) = wrapInt x := by
  unfold wrapInt
  omega

theorem wrapInt_add_left (a b : Int) : wrapInt (wrapInt a + b) = wrapInt (a + b) := by
  unfold wrapInt
  omega

/-- The running total started at a value a Go `int` holds is the wrapped
sum. -/
theorem addAll_eq (subtotals : List Int) :
    ∀ t, wrapInt t = t → addAll t subtotals = wrapInt (t + subtotals.sum) := by
  induction subtotals with
  | nil => intro t ht; simp [addAll, ht]
  | cons s rest ih =>
    intro t _
    have h := ih (wrapInt (t + s)) (wrapInt_idem _)
    unfold addAll at h ⊢
    rw [List.foldl_cons, h, wrapInt_add_left, List.sum_cons, add_assoc]

theorem addAll_cons (t s : Int) (rest : List Int) :
    addAll t (s :: rest) = addAll (wrapInt (t + s)) rest := rfl

/-! ## Lemmas on the item loop -/

theorem requested_nil (pid : Int) : requested pid [] = 0 := rfl

theorem requested_cons (pid : Int) (item : CheckoutItem) (rest : List CheckoutItem) :
    requested pid (item :: rest) =
      (if item.ProductID = pid then item.Quantity else 0) + requested pid rest := by
  unfold requested
  by_cases h : item.ProductID = pid <;> simp [List.filter_cons, h]

theorem requested_append (pid : Int) (xs ys : List CheckoutItem) :
    requested pid (xs ++ ys) = requested pid xs + requested pid ys := by
  unfold requested
  simp [List.filter_append]

/-- A cart of positive quantities requests a non-negative amount. -/
theorem requested_nonneg (pid : Int) (items : List CheckoutItem)
    (h : ∀ item ∈ items, 0 < item.Quantity) : 0 ≤ requested pid items := by
  induction items with
  | nil => simp [requested_nil]
  | cons x xs ih =>
    rw [requested_cons]
    have hx : 0 < x.Quantity := h x (List.mem_cons_self _ _)
    have hxs : 0 ≤ requested pid xs := ih fun item hi => h item (List.mem_cons_of_mem _ hi)
    split <;> linarith

/-- A cart of non-positive quantities requests a non-positive amount. -/
theorem requested_nonpos (pid : Int) (items : List CheckoutItem)
    (h : ∀ item ∈ items, item.Quantity ≤ 0) : requested pid items ≤ 0 := by
  induction items with
  | nil => simp [requested_nil]
  | cons x xs ih =>
    rw [requested_cons]
    have hx : x.Quantity ≤ 0 := h x (List.mem_cons_self _ _)
    have hxs : requested pid xs ≤ 0 := ih fun item hi => h item (List.mem_cons_of_mem _ hi)
    split <;> linarith

/-- The step of the loop when the store refuses the `SELECT`. -/
theorem processItems_cons_fault {tx : Tx} {msg : String} (ha : tx.answer = some msg)
    (item : CheckoutItem) (t : Int) (d : List TransactionDetail) (rest : List CheckoutItem) :
    processItems tx t d (item :: rest) = (tx.next, .error (.driver msg)) := by
  simp [processItems, Tx.QueryRowProduct, Row.Scan, ha]

/-- The step of the loop when the product does not exist. -/
theorem processItems_cons_none {tx : Tx} {item : CheckoutItem} (ha : tx.answer = none)
    (h : tx.work.products item.ProductID = none) (t : Int) (d : List TransactionDetail)
    (rest : List CheckoutItem) :
    processItems tx t d (item :: rest) = (tx.next, .error (.productNotFound item.ProductID)) := by
  simp [processItems, Tx.QueryRowProduct, Row.Scan, ha, h]

/-- The step of the loop when the stock is short. -/
theorem processItems_cons_short {tx : Tx} {item : CheckoutItem} {p : ProductRow}
    (ha : tx.answer = none) (h : tx.work.products item.ProductID = some p)
    (hlt : p.stock < item.Quantity)
    (t : Int) (d : List TransactionDetail) (rest : List CheckoutItem) :
    processItems tx t d (item :: rest) =
      (tx.next, .error (.stockNotEnough p.name p.stock item.Quantity)) := by
  simp [processItems, Tx.QueryRowProduct, Row.Scan, ha, h, hlt]

/-- The step of the loop when the store refuses the `UPDATE`. -/
theorem processItems_cons_update_fault {tx : Tx} {item : CheckoutItem} {p : ProductRow}
    {msg : String} (ha : tx.answer = none) (h : tx.work.products item.ProductID = some p)
    (hge : ¬ p.stock < item.Quantity) (hu : tx.next.answer = some msg)
    (t : Int) (d : List TransactionDetail) (rest : List CheckoutItem) :
    processItems tx t d (item :: rest) = (tx.next.next, .error (.driver msg)) := by
  simp [processItems, Tx.QueryRowProduct, Row.Scan, ha, h, hge, Tx.ExecUpdateStock, hu]

/-- The step of the loop when the item passes and is deducted. -/
theorem processItems_cons_step {tx : Tx} {item : CheckoutItem} {p : ProductRow}
    (ha : tx.answer = none) (h : tx.work.products item.ProductID = some p)
    (hge : ¬ p.stock < item.Quantity) (hu : tx.next.answer = none)
    (t : Int) (d : List TransactionDetail) (rest : List CheckoutItem) :
    processItems tx t d (item :: rest) =
      processItems (tx.next.next.updateStock item.Quantity item.ProductID)
        (wrapInt (t + wrapInt (item.Quantity * p.price)))
        (d ++ [⟨0, item.ProductID, p.name, item.Quantity,
                wrapInt (item.Quantity * p.price)⟩]) rest := by
  simp [processItems, Tx.QueryRowProduct, Row.Scan, ha, h, hge, Tx.ExecUpdateStock, hu]

/-- The ways one step of the loop can go: an error with the unit of work
untouched but for the count of statements, or the item is deducted. -/
theorem processItems_cons_cases (tx : Tx) (item : CheckoutItem) :
    (∃ tx1 e, tx1.committed = tx.committed ∧ tx1.work = tx.work ∧
        ∀ t d rest, processItems tx t d (item :: rest) = (tx1, .error e)) ∨
      ∃ p, tx.answer = none ∧ tx.work.products item.ProductID = some p ∧
        ¬ p.stock < item.Quantity ∧ tx.next.answer = none := by
  cases ha : tx.answer with
  | some msg => exact Or.inl ⟨tx.next, _, rfl, rfl, processItems_cons_fault ha item⟩
  | none =>
    cases h : tx.work.products item.ProductID with
    | none => exact Or.inl ⟨tx.next, _, rfl, rfl, processItems_cons_none ha h⟩
    | some p =>
      by_cases hlt : p.stock < item.Quantity
      · exact Or.inl ⟨tx.next, _, rfl, rfl, processItems_cons_short ha h hlt⟩
      · cases hu : tx.next.answer with
        | some msg => exact Or.inl ⟨tx.next.next, _, rfl, rfl, processItems_cons_update_fault ha h hlt hu⟩
        | none => exact Or.inr ⟨p, rfl, rfl, hlt, rfl⟩

theorem updateStock_products (tx : Tx) (q pid i : Int) :
    (tx.updateStock q pid).work.products i =
      if i = pid then
        match tx.work.products i with
        | none => none
        | some p => some { p with stock := p.stock - q }
      else tx.work.products i := rfl

/-- The loop never touches the durable state. -/
theorem processItems_committed (items : List CheckoutItem) :
    ∀ (tx : Tx) (t : Int) (d : List TransactionDetail),
      (processItems tx t d items).1.committed = tx.committed := by
  induction items with
  | nil => intro tx t d; rfl
  | cons item rest ih =>
    intro tx t d
    rcases processItems_cons_cases tx item with ⟨tx1, e, hc, _, h⟩ | ⟨p, ha, hp, hge, hu⟩
    · rw [h]; exact hc
    · rw [processItems_cons_step ha hp hge hu, ih]; rfl

/-- The loop keeps every stock non-negative. -/
theorem processItems_nonneg (items : List CheckoutItem) :
    ∀ (tx : Tx) (t : Int) (d : List TransactionDetail),
      (∀ i p, tx.work.products i = some p → 0 ≤ p.stock) →
        ∀ i p, (processItems tx t d items).1.work.products i = some p → 0 ≤ p.stock := by
  induction items with
  | nil => intro tx t d h; exact h
  | cons item rest ih =>
    intro tx t d h
    rcases processItems_cons_cases tx item with ⟨tx1, e, _, hw, hres⟩ | ⟨p, ha, hp, hge, hu⟩
    · rw [hres, show (tx1, (Except.error e : Except Error (Int × List TransactionDetail))).1.work
        = tx.work from hw]
      exact h
    · rw [processItems_cons_step ha hp hge hu]
      apply ih
      intro i q hq
      rw [updateStock_products] at hq
      change (if i = item.ProductID then
          match tx.work.products i with
          | none => none
          | some p => some { p with stock := p.stock - item.Quantity }
        else tx.work.products i) = some q at hq
      by_cases hid : i = item.ProductID
      · subst hid
        simp only [if_true, hp, Option.some.injEq] at hq
        subst hq
        simp only
        linarith
      · simp only [hid, if_false] at hq
        exact h i q hq

/-- Being turned down after `head :: pre` on the original table is being
turned down after `pre` on the table where `head` was deducted. -/
theorem refused_updateStock (tx : Tx) (head item : CheckoutItem) (pre : List CheckoutItem) :
    Refused (tx.updateStock head.Quantity head.ProductID).work.products pre item ↔
      Refused tx.work.products (head :: pre) item := by
  unfold Refused
  rw [updateStock_products, requested_cons]
  by_cases hid : item.ProductID = head.ProductID
  · have hid2 : head.ProductID = item.ProductID := hid.symm
    simp only [hid, if_true]
    cases hp : tx.work.products head.ProductID with
    | none => simp
    | some p => simp only; constructor <;> intro h <;> linarith
  · have hid2 : ¬ head.ProductID = item.ProductID := fun h => hid h.symm
    simp only [hid, hid2, if_false, zero_add]

theorem detailFor_updateStock (tx : Tx) (q pid : Int) (item : CheckoutItem) :
    detailFor (tx.updateStock q pid).work.products item = detailFor tx.work.products item := by
  unfold detailFor
  rw [updateStock_products]
  by_cases hid : item.ProductID = pid
  · simp only [hid, if_true]
    cases tx.work.products pid <;> rfl
  · simp only [hid, if_false]

theorem deductStock_updateStock (tx : Tx) (head : CheckoutItem) (rest : List CheckoutItem)
    (i : Int) :
    deductStock (tx.updateStock head.Quantity head.ProductID).work.products rest i =
      deductStock tx.work.products (head :: rest) i := by
  unfold deductStock
  rw [updateStock_products, requested_cons]
  by_cases hid : i = head.ProductID
  · have hid2 : head.ProductID = i := hid.symm
    simp only [hid, if_true]
    cases tx.work.products head.ProductID with
    | none => rfl
    | some p => simp only [ProductRow.mk.injEq, Option.some.injEq, true_and]; ring
  · have hid2 : ¬ head.ProductID = i := fun h => hid h.symm
    simp only [hid, hid2, if_false, zero_add]

/-- What a successful run of the loop leaves: the durable state and the two
ledger tables untouched, every stock reduced by the requested quantity, the
total increased by the subtotals, one detail appended per item in order; and
no item of the cart was turned down at its place. -/
theorem processItems_ok (items : List CheckoutItem) :
    ∀ (tx tx1 : Tx) (t t1 : Int) (d d1 : List TransactionDetail),
      processItems tx t d items = (tx1, .ok (t1, d1)) →
        tx1.committed = tx.committed ∧
        tx1.faults = tx.faults ∧
        tx1.work.transactions = tx.work.transactions ∧
        tx1.work.transaction_details = tx.work.transaction_details ∧
        tx1.work.transactions_id_seq = tx.work.transactions_id_seq ∧
        (∀ i, tx1.work.products i = deductStock tx.work.products items i) ∧
        t1 = addAll t ((items.map (detailFor tx.work.products)).map fun x => x.Subtotal) ∧
        d1 = d ++ items.map (detailFor tx.work.products) ∧
        ∀ pre item post, items = pre ++ item :: post → ¬ Refused tx.work.products pre item := by
  induction items with
  | nil =>
    intro tx tx1 t t1 d d1 h
    simp only [processItems, Prod.mk.injEq, Except.ok.injEq] at h
    obtain ⟨rfl, rfl, rfl⟩ := h
    refine ⟨rfl, rfl, rfl, rfl, rfl, ?_, by simp [addAll], by simp, by simp⟩
    intro i
    unfold deductStock
    cases tx.work.products i <;> simp [requested_nil]
  | cons head rest ih =>
    intro tx tx1 t t1 d d1 h
    rcases processItems_cons_cases tx head with ⟨tx2, e, _, _, hres⟩ | ⟨p, ha, hp, hge, hu⟩
    · rw [hres] at h; simp at h
    · rw [processItems_cons_step ha hp hge hu] at h
      obtain ⟨h1, hf, h2, h3, h4, h5, h6, h7, h8⟩ := ih _ _ _ _ _ _ h
      have hd : detailFor tx.work.products head =
          ⟨0, head.ProductID, p.name, head.Quantity,
            wrapInt (head.Quantity * p.price)⟩ := by
        simp [detailFor, hp]
      have hmap : rest.map (detailFor
            (tx.next.next.updateStock head.Quantity head.ProductID).work.products)
          = rest.map (detailFor tx.work.products) :=
        List.map_congr_left fun x _ => detailFor_updateStock tx.next.next _ _ x
      rw [hmap] at h6 h7
      refine ⟨h1, hf, h2, h3, h4, ?_, ?_, ?_, ?_⟩
      · intro i
        rw [h5 i]
        exact deductStock_updateStock tx.next.next head rest i
      · rw [h6, List.map_cons, List.map_cons, addAll_cons, hd]
      · rw [h7, List.map_cons, hd]; simp
      · intro pre item post hsplit href
        cases pre with
        | nil =>
          simp only [List.nil_append, List.cons.injEq] at hsplit
          obtain ⟨rfl, rfl⟩ := hsplit
          simp only [Refused, hp, requested_nil, sub_zero] at href
          exact hge href
        | cons x pre =>
          simp only [List.cons_append, List.cons.injEq] at hsplit
          obtain ⟨rfl, rfl⟩ := hsplit
          exact h8 pre item post rfl ((refused_updateStock tx.next.next head item pre).2 href)


/-- The loop over `xs ++ ys` is the loop over `xs` followed, unless it failed,
by the loop over `ys`. -/
theorem processItems_append (xs ys : List CheckoutItem) :
    ∀ (tx : Tx) (t : Int) (d : List TransactionDetail),
      processItems tx t d (xs ++ ys) =
        match processItems tx t d xs with
        | (tx1, .error e) => (tx1, .error e)
        | (tx1, .ok (t1, d1)) => processItems tx1 t1 d1 ys := by
  induction xs with
  | nil => intro tx t d; simp [processItems]
  | cons x xs ih =>
    intro tx t d
    rcases processItems_cons_cases tx x with ⟨tx1, e, _, _, hres⟩ | ⟨p, ha, hp, hge, hu⟩
    · rw [List.cons_append, hres, hres]
    · rw [List.cons_append, processItems_cons_step ha hp hge hu,
        processItems_cons_step ha hp hge hu, ih]

theorem answer_of_reliable {tx : Tx} (hf : tx.faults = reliable) : tx.answer = none := by
  simp [Tx.answer, hf, reliable]

/-- On a store that answers, the loop ends in an error exactly when some item
of the cart is turned down at its place. -/
theorem processItems_error_iff (items : List CheckoutItem) :
    ∀ (tx : Tx) (t : Int) (d : List TransactionDetail), tx.faults = reliable →
      ((∃ e, (processItems tx t d items).2 = .error e) ↔
        ∃ pre item post, items = pre ++ item :: post ∧ Refused tx.work.products pre item) := by
  induction items with
  | nil =>
    intro tx t d _
    constructor
    · rintro ⟨e, he⟩; simp [processItems] at he
    · rintro ⟨pre, item, post, h, _⟩; simp at h
  | cons head rest ih =>
    intro tx t d hf
    have ha : tx.answer = none := answer_of_reliable hf
    have hfn : tx.next.faults = reliable := hf
    have hu : tx.next.answer = none := answer_of_reliable hfn
    cases h : tx.work.products head.ProductID with
    | none =>
      rw [processItems_cons_none ha h]
      constructor
      · intro _
        exact ⟨[], head, rest, rfl, by simp [Refused, h]⟩
      · intro _; exact ⟨_, rfl⟩
    | some p =>
      by_cases hlt : p.stock < head.Quantity
      · rw [processItems_cons_short ha h hlt]
        constructor
        · intro _
          exact ⟨[], head, rest, rfl, by simpa [Refused, h, requested_nil] using hlt⟩
        · intro _; exact ⟨_, rfl⟩
      · rw [processItems_cons_step ha h hlt hu,
          ih (tx.next.next.updateStock head.Quantity head.ProductID) _ _ hf]
        constructor
        · rintro ⟨pre, item, post, hsplit, href⟩
          exact ⟨head :: pre, item, post, by simp [hsplit],
            (refused_updateStock tx.next.next head item pre).1 href⟩
        · rintro ⟨pre, item, post, hsplit, href⟩
          cases pre with
          | nil =>
            simp only [List.nil_append, List.cons.injEq] at hsplit
            obtain ⟨rfl, rfl⟩ := hsplit
            exfalso
            simp only [Refused, h, requested_nil, sub_zero] at href
            exact hlt href
          | cons x pre =>
            simp only [List.cons_append, List.cons.injEq] at hsplit
            obtain ⟨rfl, rfl⟩ := hsplit
            exact ⟨pre, item, post, rfl,
              (refused_updateStock tx.next.next head item pre).2 href⟩

/-- The result of the loop is an error or a success. -/
theorem processItems_cases (tx : Tx) (t : Int) (d : List TransactionDetail)
    (items : List CheckoutItem) :
    (∃ tx1 e, processItems tx t d items = (tx1, .error e)) ∨
      ∃ tx1 t1 d1, processItems tx t d items = (tx1, .ok (t1, d1)) := by
  rcases hres : processItems tx t d items with ⟨tx1, r⟩
  cases r with
  | error e => exact Or.inl ⟨tx1, e, rfl⟩
  | ok v => exact Or.inr ⟨tx1, v.1, v.2, rfl⟩

/-! ## Lemmas on the inserts and on the whole function -/

/-- The second loop never touches the durable state. -/
theorem insertDetails_committed (ds : List TransactionDetail) :
    ∀ (tx : Tx) (id : Int), (insertDetails tx id ds).1.committed = tx.committed := by
  induction ds with
  | nil => intro tx id; rfl
  | cons d rest ih =>
    intro tx id
    cases ha : tx.answer with
    | some msg => simp [insertDetails, Tx.ExecInsertDetail, ha, Tx.next]
    | none =>
      simp only [insertDetails, Tx.ExecInsertDetail, ha]
      have := ih { tx.next with
        work := { tx.work with
          transaction_details := tx.work.transaction_details ++
            [{ transaction_id := id, product_id := d.ProductID,
               quantity := d.Quantity, subtotal := d.Subtotal }] } } id
      revert this
      rcases insertDetails _ id rest with ⟨tx2, r⟩
      cases r <;> exact fun h => h

/-- A successful second loop stamps every detail and appends one row per
detail. -/
theorem insertDetails_ok (ds : List TransactionDetail) :
    ∀ (tx tx1 : Tx) (id : Int) (ds1 : List TransactionDetail),
      insertDetails tx id ds = (tx1, .ok ds1) →
        ds1 = ds.map (stamp id) ∧
        tx1.work.products = tx.work.products ∧
        tx1.work.transactions = tx.work.transactions ∧
        tx1.work.transaction_details =
          tx.work.transaction_details ++ (ds.map (stamp id)).map detailRow ∧
        tx1.work.transactions_id_seq = tx.work.transactions_id_seq ∧
        tx1.faults = tx.faults := by
  induction ds with
  | nil =>
    intro tx tx1 id ds1 h
    simp only [insertDetails, Prod.mk.injEq, Except.ok.injEq] at h
    obtain ⟨rfl, rfl⟩ := h
    simp
  | cons d rest ih =>
    intro tx tx1 id ds1 h
    cases ha : tx.answer with
    | some msg => simp [insertDetails, Tx.ExecInsertDetail, ha] at h
    | none =>
      simp only [insertDetails, Tx.ExecInsertDetail, ha] at h
      rcases hrec : insertDetails { tx.next with
        work := { tx.work with
          transaction_details := tx.work.transaction_details ++
            [{ transaction_id := id, product_id := d.ProductID,
               quantity := d.Quantity, subtotal := d.Subtotal }] } } id rest with ⟨tx2, r⟩
      rw [hrec] at h
      cases r with
      | error e => simp at h
      | ok ds2 =>
        simp only [Prod.mk.injEq, Except.ok.injEq] at h
        obtain ⟨rfl, rfl⟩ := h
        obtain ⟨h1, h2, h3, h4, h5, h6⟩ := ih _ _ _ _ hrec
        refine ⟨?_, h2, h3, ?_, h5, h6⟩
        · rw [h1]; rfl
        · rw [h4]; simp [stamp, detailRow]

/-- On a store that answers, the second loop succeeds. -/
theorem insertDetails_reliable (ds : List TransactionDetail) :
    ∀ (tx : Tx) (id : Int), tx.faults = reliable →
      ∃ tx1 ds1, insertDetails tx id ds = (tx1, .ok ds1) := by
  induction ds with
  | nil => intro tx id _; exact ⟨_, _, rfl⟩
  | cons d rest ih =>
    intro tx id hf
    have ha : tx.answer = none := answer_of_reliable hf
    simp only [insertDetails, Tx.ExecInsertDetail, ha]
    obtain ⟨tx2, ds2, h2⟩ := ih { tx.next with
        work := { tx.work with
          transaction_details := tx.work.transaction_details ++
            [{ transaction_id := id, product_id := d.ProductID,
               quantity := d.Quantity, subtotal := d.Subtotal }] } } id hf
    rw [h2]
    exact ⟨_, _, rfl⟩


theorem sameTables_refl (a : DB) : SameTables a a := ⟨rfl, rfl, rfl⟩

/-- The unit of work after the insert into `transactions` was answered. -/
theorem QueryRowInsertTransaction_answered {tx : Tx} (ha : tx.answer = none) (now total : Int) :
    tx.QueryRowInsertTransaction now total =
      ({ tx.next with
         committed := { tx.committed with
           transactions_id_seq := tx.work.transactions_id_seq + 1 }
         work := { tx.work with
           transactions := tx.work.transactions ++
             [{ id := tx.work.transactions_id_seq, total_amount := total, created_at := now }]
           transactions_id_seq := tx.work.transactions_id_seq + 1 } },
       .row tx.work.transactions_id_seq none) := by
  simp [Tx.QueryRowInsertTransaction, ha]

/-- The outcome of the body of `CreateTransaction`: an error with the flag
`committed` unset and the durable tables untouched, or the loop succeeded,
the flag is set, and the durable state holds the deducted stocks, the new
`transactions` row and the rows of the stamped details. -/
theorem createTransactionBody_cases (tx : Tx) (now : Int) (items : List CheckoutItem) :
    (∃ tx1 e, createTransactionBody tx now items = (tx1, .error e, false) ∧
        SameTables tx1.committed tx.committed) ∨
      ∃ tx0 tx1 t1 d1, processItems tx 0 [] items = (tx0, .ok (t1, d1)) ∧
        createTransactionBody tx now items =
          (tx1, .ok { ID := tx.work.transactions_id_seq, TotalAmount := t1,
                      Details := d1.map (stamp tx.work.transactions_id_seq) }, true) ∧
        tx1.committed.products = tx0.work.products ∧
        tx1.committed.transactions = tx.work.transactions ++
          [{ id := tx.work.transactions_id_seq, total_amount := t1, created_at := now }] ∧
        tx1.committed.transaction_details = tx.work.transaction_details ++
          (d1.map (stamp tx.work.transactions_id_seq)).map detailRow := by
  rcases processItems_cases tx 0 [] items with ⟨tx0, e, h⟩ | ⟨tx0, t1, d1, h⟩
  · left
    refine ⟨tx0, e, by simp [createTransactionBody, h], ?_⟩
    have hc := processItems_committed items tx 0 []
    rw [h] at hc
    have hc2 : tx0.committed = tx.committed := hc
    rw [hc2]; exact sameTables_refl _
  · obtain ⟨hc, _, htr, htd, hseq, _, _, _, _⟩ := processItems_ok items _ _ _ _ _ _ h
    cases ha : tx0.answer with
    | some msg =>
      left
      refine ⟨tx0.next, .driver msg,
        by simp [createTransactionBody, h, Tx.QueryRowInsertTransaction, ha, Row.Scan], ?_⟩
      change SameTables tx0.committed tx.committed
      rw [hc]; exact sameTables_refl _
    | none =>
      have hins := QueryRowInsertTransaction_answered ha now t1
      generalize htx2 : ({ tx0.next with
         committed := { tx0.committed with
           transactions_id_seq := tx0.work.transactions_id_seq + 1 }
         work := { tx0.work with
           transactions := tx0.work.transactions ++
             [{ id := tx0.work.transactions_id_seq, total_amount := t1, created_at := now }]
           transactions_id_seq := tx0.work.transactions_id_seq + 1 } } : Tx) = tx2 at hins
      have h2c : SameTables tx2.committed tx.committed := by
        rw [← htx2, ← hc]; exact ⟨rfl, rfl, rfl⟩
      have h2w : tx2.work.products = tx0.work.products ∧
          tx2.work.transactions = tx.work.transactions ++
            [{ id := tx.work.transactions_id_seq, total_amount := t1, created_at := now }] ∧
          tx2.work.transaction_details = tx.work.transaction_details := by
        rw [← htx2, ← htr, ← htd, ← hseq]; exact ⟨rfl, rfl, rfl⟩
      cases hp : tx2.answer with
      | some msg =>
        left
        refine ⟨tx2.next, .driver msg,
          by simp [createTransactionBody, h, hins, Row.Scan, Tx.Prepare, hp], h2c⟩
      | none =>
        rcases hd : insertDetails tx2.next tx0.work.transactions_id_seq d1 with ⟨tx3, r⟩
        have h3c : tx3.committed = tx2.committed := by
          have := insertDetails_committed d1 tx2.next tx0.work.transactions_id_seq
          rw [hd] at this
          exact this
        cases r with
        | error e =>
          left
          refine ⟨tx3, e,
            by simp [createTransactionBody, h, hins, Row.Scan, Tx.Prepare, hp, hd], ?_⟩
          rw [h3c]; exact h2c
        | ok ds1 =>
          obtain ⟨hds, h3p, h3t, h3d, _, _⟩ := insertDetails_ok d1 _ _ _ _ hd
          cases hcm : tx3.answer with
          | some msg =>
            left
            refine ⟨tx3.next, .driver msg,
              by simp [createTransactionBody, h, hins, Row.Scan, Tx.Prepare, hp, hd,
                Tx.Commit, hcm], ?_⟩
            change SameTables tx3.committed tx.committed
            rw [h3c]; exact h2c
          | none =>
            right
            refine ⟨tx0, { tx3.next with committed := tx3.work }, t1, d1, h, ?_, ?_, ?_, ?_⟩
            · rw [hseq] at hd hds
              simp [createTransactionBody, h, hins, Row.Scan, Tx.Prepare, hp, hd,
                Tx.Commit, hcm, hds, hseq]
            · change tx3.work.products = tx0.work.products
              rw [h3p]; exact h2w.1
            · change tx3.work.transactions = _
              rw [h3t]; exact h2w.2.1
            · change tx3.work.transaction_details = _
              rw [h3d, hseq]
              change tx2.work.transaction_details ++ _ = _
              rw [h2w.2.2]


/-- On a store that answers, the body succeeds as soon as the loop does. -/
theorem createTransactionBody_reliable {tx tx0 : Tx} {t1 : Int} {d1 : List TransactionDetail}
    {items : List CheckoutItem} (now : Int) (hf : tx.faults = reliable)
    (h : processItems tx 0 [] items = (tx0, .ok (t1, d1))) :
    ∃ tx1 t, createTransactionBody tx now items = (tx1, .ok t, true) := by
  obtain ⟨_, hf0, _, _, _, _, _, _, _⟩ := processItems_ok items _ _ _ _ _ _ h
  have hf0r : tx0.faults = reliable := hf0.trans hf
  have ha : tx0.answer = none := answer_of_reliable hf0r
  have hins := QueryRowInsertTransaction_answered ha now t1
  generalize htx2 : ({ tx0.next with
     committed := { tx0.committed with
       transactions_id_seq := tx0.work.transactions_id_seq + 1 }
     work := { tx0.work with
       transactions := tx0.work.transactions ++
         [{ id := tx0.work.transactions_id_seq, total_amount := t1, created_at := now }]
       transactions_id_seq := tx0.work.transactions_id_seq + 1 } } : Tx) = tx2 at hins
  have hf2 : tx2.faults = reliable := by rw [← htx2]; exact hf0r
  have hp : tx2.answer = none := answer_of_reliable hf2
  have hf2n : tx2.next.faults = reliable := hf2
  obtain ⟨tx3, ds1, hd⟩ := insertDetails_reliable d1 tx2.next tx0.work.transactions_id_seq hf2n
  have hf3 : tx3.faults = reliable := (insertDetails_ok d1 _ _ _ _ hd).2.2.2.2.2.trans hf2n
  have hcm : tx3.answer = none := answer_of_reliable hf3
  refine ⟨{ tx3.next with committed := tx3.work },
    { ID := tx0.work.transactions_id_seq, TotalAmount := t1, Details := ds1 }, ?_⟩
  simp [createTransactionBody, h, hins, Row.Scan, Tx.Prepare, hp, hd, Tx.Commit, hcm]

theorem Begin_cases (db : DB) (faults : Faults) :
    (∃ msg, Begin db faults = .error (.driver msg)) ∨
      (faults 0 = none ∧ Begin db faults = .ok (startTx db faults)) := by
  cases h : faults 0 with
  | some msg => exact Or.inl ⟨msg, by simp [Begin, h]⟩
  | none => exact Or.inr ⟨rfl, by simp [Begin, h, startTx]⟩

theorem Begin_reliable (db : DB) : Begin db reliable = .ok (startTx db reliable) := rfl

/-- The outcome of `CreateTransaction` on any store: an error with the three
tables as before the call, or the loop succeeded and the store holds the
deducted stocks, the new `transactions` row and the rows of the stamped
details. -/
theorem CreateTransaction_cases (db : DB) (faults : Faults) (now : Int)
    (items : List CheckoutItem) :
    (∃ db1 e, CreateTransaction db faults now items = (db1, .error e) ∧ SameTables db1 db) ∨
      ∃ tx0 t1 d1 db1, processItems (startTx db faults) 0 [] items = (tx0, .ok (t1, d1)) ∧
        CreateTransaction db faults now items =
          (db1, .ok { ID := db.transactions_id_seq, TotalAmount := t1,
                      Details := d1.map (stamp db.transactions_id_seq) }) ∧
        db1.products = tx0.work.products ∧
        db1.transactions = db.transactions ++
          [{ id := db.transactions_id_seq, total_amount := t1, created_at := now }] ∧
        db1.transaction_details = db.transaction_details ++
          (d1.map (stamp db.transactions_id_seq)).map detailRow := by
  rcases Begin_cases db faults with ⟨msg, hb⟩ | ⟨_, hb⟩
  · left
    exact ⟨db, .driver msg, by simp [CreateTransaction, hb], sameTables_refl db⟩
  · rcases createTransactionBody_cases (startTx db faults) now items with
      ⟨tx1, e, hbody, hsame⟩ | ⟨tx0, tx1, t1, d1, hloop, hbody, h1, h2, h3⟩
    · left
      exact ⟨tx1.committed, e, by simp [CreateTransaction, hb, hbody, Tx.Rollback, Tx.next], hsame⟩
    · right
      have hres : CreateTransaction db faults now items =
          (tx1.committed,
            .ok ⟨db.transactions_id_seq, t1, d1.map (stamp db.transactions_id_seq)⟩) := by
        simp only [CreateTransaction, hb, hbody]
        rfl
      exact ⟨tx0, t1, d1, tx1.committed, hloop, hres, h1, h2, h3⟩

/-- A failing loop makes `CreateTransaction` return the error and the store as
it was. -/
theorem CreateTransaction_of_loop_error {db : DB} {faults : Faults} {items : List CheckoutItem}
    {tx1 : Tx} {e : Error} (now : Int) (hb : faults 0 = none)
    (h : processItems (startTx db faults) 0 [] items = (tx1, .error e)) :
    CreateTransaction db faults now items = (db, .error e) := by
  have hc := processItems_committed items (startTx db faults) 0 []
  rw [h] at hc
  have hc2 : tx1.committed = db := hc
  have hbegin : Begin db faults = .ok (startTx db faults) := by simp [Begin, hb, startTx]
  simp [CreateTransaction, hbegin, createTransactionBody, h, Tx.Rollback, Tx.next, hc2]

/-- On a store that answers, a successful loop makes `CreateTransaction`
commit the deducted stocks, one `transactions` row and one
`transaction_details` row per detail. -/
theorem CreateTransaction_of_loop_ok {db : DB} {items : List CheckoutItem} {tx0 : Tx}
    {t1 : Int} {d1 : List TransactionDetail} (now : Int)
    (h : processItems (startTx db reliable) 0 [] items = (tx0, .ok (t1, d1))) :
    ∃ db1, CreateTransaction db reliable now items =
          (db1, .ok { ID := db.transactions_id_seq, TotalAmount := t1,
                      Details := d1.map (stamp db.transactions_id_seq) }) ∧
        db1.products = tx0.work.products ∧
        db1.transactions = db.transactions ++
          [{ id := db.transactions_id_seq, total_amount := t1, created_at := now }] ∧
        db1.transaction_details = db.transaction_details ++
          (d1.map (stamp db.transactions_id_seq)).map detailRow := by
  rcases CreateTransaction_cases db reliable now items with
    ⟨db1, e, hres, _⟩ | ⟨tx0', t1', d1', db1, hloop, hres, h1, h2, h3⟩
  · exfalso
    have hfs : (startTx db reliable).faults = reliable := rfl
    obtain ⟨tx1, t, hbody⟩ := createTransactionBody_reliable now hfs h
    simp [CreateTransaction, Begin_reliable, hbody] at hres
  · rw [h] at hloop
    simp only [Prod.mk.injEq, Except.ok.injEq] at hloop
    obtain ⟨rfl, rfl, rfl⟩ := hloop
    exact ⟨db1, hres, h1, h2, h3⟩

/-- On a store that answers, `CreateTransaction` returns an error exactly when
some item of the cart is turned down at its place. -/
theorem CreateTransaction_error_iff (db : DB) (now : Int) (items : List CheckoutItem) :
    (∃ e, (CreateTransaction db reliable now items).2 = .error e) ↔
      ∃ pre item post, items = pre ++ item :: post ∧ Refused db.products pre item := by
  have key := processItems_error_iff items (startTx db reliable) 0 [] rfl
  change _ ↔ ∃ pre item post, items = pre ++ item :: post ∧ Refused db.products pre item at key
  rw [← key]
  rcases processItems_cases (startTx db reliable) 0 [] items with ⟨tx1, e1, h1⟩ | ⟨tx1, t1, d1, h1⟩
  · rw [CreateTransaction_of_loop_error now rfl h1, h1]
    exact ⟨fun _ => ⟨e1, rfl⟩, fun _ => ⟨e1, rfl⟩⟩
  · obtain ⟨db1, hres, _⟩ := CreateTransaction_of_loop_ok now h1
    rw [hres, h1]
    simp


/-! ## Lemmas on the report -/

/-- On a store that answers, `GetSalesSummary` returns the row of `baseQuery`
and the first row, if any, of `bestSellerQuery`. -/
theorem GetSalesSummary_handle (db : DB) (clock : Clock) (startDate endDate : Option Int) :
    GetSalesSummary ⟨db.handle⟩ clock startDate endDate =
      .ok ⟨(baseQuery db (reportWindow clock startDate endDate).1
              (reportWindow clock startDate endDate).2).1,
           (baseQuery db (reportWindow clock startDate endDate).1
              (reportWindow clock startDate endDate).2).2,
           ((bestSellerQuery db (reportWindow clock startDate endDate).1
              (reportWindow clock startDate endDate).2).head?).map
             fun r => ⟨r.1, r.2⟩⟩ := by
  rcases hw : reportWindow clock startDate endDate with ⟨s, e⟩
  simp only [GetSalesSummary, hw, DB.handle, Row.Scan]
  cases hq : bestSellerQuery db s e with
  | nil => simp
  | cons r rs => simp

/-- Whatever error the best-seller statement fails with, the answer is a
summary without best seller and no error. -/
theorem GetSalesSummary_bestSeller_failed (repo : ReportRepository) (clock : Clock)
    (startDate endDate : Option Int) (rev cnt : Int) (err : Error)
    (hbase : repo.db.QueryRowBase (reportWindow clock startDate endDate).1
      (reportWindow clock startDate endDate).2 = .row (rev, cnt) none)
    (hbest : repo.db.QueryRowBestSeller (reportWindow clock startDate endDate).1
      (reportWindow clock startDate endDate).2 = .failed err) :
    GetSalesSummary repo clock startDate endDate = .ok ⟨rev, cnt, none⟩ := by
  rcases hw : reportWindow clock startDate endDate with ⟨s, e⟩
  rw [hw] at hbase hbest
  by_cases he : err = .ErrNoRows <;> simp [GetSalesSummary, hw, hbase, hbest, Row.Scan, he]

theorem between_iff (x a b : Int) : between x a b = true ↔ a ≤ x ∧ x ≤ b := by
  simp [between]

theorem baseQuery_eq (db : DB) (start end_ : Int) :
    baseQuery db start end_ =
      (((closedWindow db start end_).map fun t => t.total_amount).sum,
        ((closedWindow db start end_).length : Int)) := rfl

/-- A window without transaction gives an empty join. -/
theorem bestSellerJoin_eq_nil (db : DB) (start end_ : Int)
    (h : ∀ t ∈ db.transactions, ¬ (start ≤ t.created_at ∧ t.created_at ≤ end_)) :
    bestSellerJoin db start end_ = [] := by
  unfold bestSellerJoin
  rw [List.flatMap_eq_nil_iff]
  intro td _
  cases db.products td.product_id with
  | none => rfl
  | some p =>
    simp only [List.map_eq_nil_iff, List.filter_eq_nil_iff]
    intro t ht hcond
    simp only [Bool.and_eq_true, between_iff] at hcond
    exact h t ht hcond.2

theorem closedWindow_eq_nil (db : DB) (start end_ : Int)
    (h : ∀ t ∈ db.transactions, ¬ (start ≤ t.created_at ∧ t.created_at ≤ end_)) :
    closedWindow db start end_ = [] := by
  unfold closedWindow
  rw [List.filter_eq_nil_iff]
  intro t ht hcond
  simp only [Bool.and_eq_true, decide_eq_true_eq] at hcond
  exact h t ht hcond

theorem mem_groupByName {rows : List (String × Int)} {r : String × Int} (hr : r ∈ rows) :
    (r.1, soldByName rows r.1) ∈ groupByName rows := by
  unfold groupByName
  rw [List.mem_map]
  exact ⟨r.1, List.mem_dedup.2 (List.mem_map.2 ⟨r, hr, rfl⟩), rfl⟩

theorem of_mem_groupByName {rows : List (String × Int)} {g : String × Int}
    (hg : g ∈ groupByName rows) : (∃ r ∈ rows, r.1 = g.1) ∧ g.2 = soldByName rows g.1 := by
  unfold groupByName at hg
  rw [List.mem_map] at hg
  obtain ⟨n, hn, rfl⟩ := hg
  rw [List.mem_dedup, List.mem_map] at hn
  obtain ⟨r, hr, rfl⟩ := hn
  exact ⟨⟨r, hr, rfl⟩, rfl⟩

/-- Group, order, limit: from a non-empty join the statement returns one row,
the name of a group and its sum, and no group has a greater sum. -/
theorem groupOrderLimit_spec (rows : List (String × Int)) (h : rows ≠ []) :
    ∃ g, (orderByQtyDesc (groupByName rows)).take 1 = [g] ∧
      (∃ r ∈ rows, r.1 = g.1) ∧ g.2 = soldByName rows g.1 ∧
      ∀ r ∈ rows, soldByName rows r.1 ≤ g.2 := by
  obtain ⟨r0, hr0⟩ := List.exists_mem_of_ne_nil rows h
  have hmem0 : (r0.1, soldByName rows r0.1) ∈ orderByQtyDesc (groupByName rows) :=
    (List.mem_insertionSort qtyDesc).2 (mem_groupByName hr0)
  have hsorted : List.Sorted qtyDesc (orderByQtyDesc (groupByName rows)) :=
    List.sorted_insertionSort qtyDesc _
  cases hs : orderByQtyDesc (groupByName rows) with
  | nil => rw [hs] at hmem0; simp at hmem0
  | cons g tl =>
    rw [hs] at hsorted
    have hg : g ∈ groupByName rows := by
      apply (List.mem_insertionSort qtyDesc).1
      change g ∈ orderByQtyDesc (groupByName rows)
      rw [hs]; simp
    obtain ⟨hname, hsum⟩ := of_mem_groupByName hg
    refine ⟨g, by simp, hname, hsum, ?_⟩
    intro r hr
    have hx : (r.1, soldByName rows r.1) ∈ g :: tl := by
      rw [← hs]
      exact (List.mem_insertionSort qtyDesc).2 (mem_groupByName hr)
    rcases List.mem_cons.1 hx with heq | htl
    · rw [← heq]
    · exact List.rel_of_sorted_cons hsorted _ htl


/-! ## Checkout: the properties -/

/-- C1. Atomicity of `CreateTransaction` on failure: whenever the call returns
an error (a cart item names a product that does not exist, or asks for more
than the stock left; or the store refused a statement), the store after the
call has every product as before, stock included, and no row was added to
`transactions` or to `transaction_details`; deductions already made for
earlier items are undone. -/
theorem CreateTransaction_error_atomic (db : DB) (faults : Faults) (now : Int)
    (items : List CheckoutItem) (e : Error)
    (h : (CreateTransaction db faults now items).2 = .error e) :
    (∀ pid, (CreateTransaction db faults now items).1.products pid = db.products pid) ∧
      (CreateTransaction db faults now items).1.transactions = db.transactions ∧
      (CreateTransaction db faults now items).1.transaction_details =
        db.transaction_details := by
  rcases CreateTransaction_cases db faults now items with
    ⟨db1, e1, hres, hp, ht, hd⟩ | ⟨tx0, t1, d1, db1, _, hres, _⟩
  · rw [hres]
    exact ⟨fun pid => congrFun hp pid, ht, hd⟩
  · rw [hres] at h
    simp at h

/-- C1 at a concrete cart: the first item (3 of product 1, stock 5) passes
and is deducted, the second names the missing product 2. -/
theorem CreateTransaction_error_atomic_witness :
    (CreateTransaction exampleDB reliable 100 [⟨1, 3⟩, ⟨2, 1⟩]).2 =
        .error (.productNotFound 2) ∧
      (CreateTransaction exampleDB reliable 100 [⟨1, 3⟩, ⟨2, 1⟩]).1.products 1 =
        some { name := "A", price := 10, stock := 5 } ∧
      (CreateTransaction exampleDB reliable 100 [⟨1, 3⟩, ⟨2, 1⟩]).1.transactions = [] ∧
      (CreateTransaction exampleDB reliable 100 [⟨1, 3⟩, ⟨2, 1⟩]).1.transaction_details = [] :=
  have h := CreateTransaction_error_atomic exampleDB reliable 100 [⟨1, 3⟩, ⟨2, 1⟩]
    (.productNotFound 2) rfl
  ⟨rfl, (h.1 1).trans rfl, h.2.1.trans rfl, h.2.2.trans rfl⟩

/-- C2. Stock postcondition of a successful `CreateTransaction`: when every
item references an existing product, every quantity is positive, and for each
product the quantities requested for it over the whole cart sum to at most
its stock, the call (on a store that answers) succeeds and every product's
stock is its stock before minus that sum (so a product the cart does not name
keeps its stock). -/
theorem CreateTransaction_stock_postcondition (db : DB) (now : Int)
    (items : List CheckoutItem)
    (hex : ∀ item ∈ items, ∃ p, db.products item.ProductID = some p)
    (hpos : ∀ item ∈ items, 0 < item.Quantity)
    (hsum : ∀ pid p, db.products pid = some p → requested pid items ≤ p.stock) :
    (∃ t, (CreateTransaction db reliable now items).2 = .ok t) ∧
      ∀ pid, (CreateTransaction db reliable now items).1.products pid =
        match db.products pid with
        | none => none
        | some p => some { p with stock := p.stock - requested pid items } := by
  rcases processItems_cases (startTx db reliable) 0 [] items with
    ⟨tx1, e1, h1⟩ | ⟨tx1, t1, d1, h1⟩
  · exfalso
    have herr : ∃ e, (processItems (startTx db reliable) 0 [] items).2 = .error e :=
      ⟨e1, by rw [h1]⟩
    obtain ⟨pre, item, post, hsplit, href⟩ := (processItems_error_iff items _ _ _ rfl).1 herr
    have hmem : item ∈ items := by rw [hsplit]; simp
    obtain ⟨p, hp⟩ := hex item hmem
    have hp2 : (startTx db reliable).work.products item.ProductID = some p := hp
    simp only [Refused, hp2] at href
    have hle := hsum _ p hp
    have hpost : 0 ≤ requested item.ProductID post :=
      requested_nonneg _ post fun x hx => hpos x (by rw [hsplit]; simp [hx])
    rw [hsplit, requested_append, requested_cons] at hle
    simp only [if_true] at hle
    linarith
  · obtain ⟨db1, hres, hprod, _, _⟩ := CreateTransaction_of_loop_ok now h1
    rw [hres]
    refine ⟨⟨_, rfl⟩, ?_⟩
    intro pid
    change db1.products pid = _
    rw [hprod]
    exact (processItems_ok items _ _ _ _ _ _ h1).2.2.2.2.2.1 pid

/-- C2 at a concrete cart: product 1 (stock 5) twice, 3 and 2, leaves stock 0. -/
theorem CreateTransaction_stock_postcondition_witness :
    (∃ t, (CreateTransaction exampleDB reliable 100 [⟨1, 3⟩, ⟨1, 2⟩]).2 = .ok t) ∧
      ∀ pid, (CreateTransaction exampleDB reliable 100 [⟨1, 3⟩, ⟨1, 2⟩]).1.products pid =
        match exampleDB.products pid with
        | none => none
        | some p => some { p with stock := p.stock - requested pid [⟨1, 3⟩, ⟨1, 2⟩] } :=
  CreateTransaction_stock_postcondition exampleDB 100 [⟨1, 3⟩, ⟨1, 2⟩]
    (by
      intro item hitem
      simp only [List.mem_cons, List.mem_singleton, List.not_mem_nil, or_false] at hitem
      rcases hitem with rfl | rfl <;> exact ⟨_, rfl⟩)
    (by
      intro item hitem
      simp only [List.mem_cons, List.mem_singleton, List.not_mem_nil, or_false] at hitem
      rcases hitem with rfl | rfl <;> decide)
    (by
      intro pid p hp
      by_cases h1 : pid = 1
      · subst h1
        simp only [exampleDB, if_true, Option.some.injEq] at hp
        subst hp
        decide
      · simp [exampleDB, h1] at hp)

/-- C3 as stated fails: the subtotal is the product in Go `int` arithmetic,
which wraps. For 2 of a product priced 2^62 the exact product is 2^63; the
detail and the transaction carry -2^63. -/
theorem subtotal_wraps_around :
    (CreateTransaction costlyDB reliable 100 [⟨1, 2⟩]).2 =
        .ok { ID := 1, TotalAmount := -9223372036854775808,
              Details := [⟨1, 1, "A", 2, -9223372036854775808⟩] } ∧
      (2 : Int) * 4611686018427387904 = 9223372036854775808 ∧
      (CreateTransaction costlyDB reliable 100 [⟨1, 2⟩]).1.transactions =
        [⟨1, -9223372036854775808, 100⟩] :=
  ⟨rfl, by decide, rfl⟩

/-- C3, amended. Result of a successful `CreateTransaction`: the returned
transaction has one detail per cart item, in cart order; the detail of an
item carries the id of the new transaction, the item's product id, the name
of that product, the item's quantity and the subtotal quantity times the
product's price computed in Go `int` arithmetic (wrapped to 64 bits), which
is the exact product whenever that fits; `TotalAmount` is the sum of the
subtotals of the details in the same arithmetic, the exact sum whenever that
fits, and it is the amount of the one row added to `transactions` under the
returned id; the rows added to `transaction_details` are those of the
returned details. -/
theorem CreateTransaction_result (db : DB) (faults : Faults) (now : Int)
    (items : List CheckoutItem) (t : Transaction)
    (h : (CreateTransaction db faults now items).2 = .ok t) :
    List.Forall₂
        (fun item d => ∃ p, db.products item.ProductID = some p ∧
          d = { TransactionID := t.ID, ProductID := item.ProductID, ProductName := p.name,
                Quantity := item.Quantity,
                Subtotal := wrapInt (item.Quantity * p.price) } ∧
          (InInt64 (item.Quantity * p.price) → d.Subtotal = item.Quantity * p.price))
        items t.Details ∧
      t.TotalAmount = wrapInt (t.Details.map fun d => d.Subtotal).sum ∧
      (InInt64 (t.Details.map fun d => d.Subtotal).sum →
        t.TotalAmount = (t.Details.map fun d => d.Subtotal).sum) ∧
      (CreateTransaction db faults now items).1.transactions =
        db.transactions ++
          [{ id := t.ID, total_amount := t.TotalAmount, created_at := now }] ∧
      (CreateTransaction db faults now items).1.transaction_details =
        db.transaction_details ++ t.Details.map detailRow := by
  rcases CreateTransaction_cases db faults now items with
    ⟨db1, e1, hres, _⟩ | ⟨tx0, t1, d1, db1, hloop, hres, _, htr, htd⟩
  · rw [hres] at h
    simp at h
  · obtain ⟨_, _, _, _, _, _, ht, hd, hpass⟩ := processItems_ok items _ _ _ _ _ _ hloop
    rw [hres] at h ⊢
    simp only [Except.ok.injEq] at h
    subst h
    simp only [List.nil_append] at hd
    rw [addAll_eq _ 0 (by decide), zero_add] at ht
    subst hd
    have htotal : t1 = wrapInt
        (((items.map (detailFor (startTx db faults).work.products)).map
          (stamp db.transactions_id_seq)).map fun d => d.Subtotal).sum := by
      rw [ht]
      simp [List.map_map, Function.comp_def, stamp]
    refine ⟨?_, htotal, ?_, htr, htd⟩
    · rw [List.forall₂_map_right_iff, List.forall₂_map_right_iff, List.forall₂_same]
      intro item hitem
      obtain ⟨pre, post, hsplit⟩ := List.append_of_mem hitem
      cases hp : db.products item.ProductID with
      | none =>
        exfalso
        apply hpass pre item post hsplit
        have hp2 : (startTx db faults).work.products item.ProductID = none := hp
        simp [Refused, hp2]
      | some p =>
        have hp2 : (startTx db faults).work.products item.ProductID = some p := hp
        refine ⟨p, rfl, by simp [detailFor, hp2, stamp], ?_⟩
        intro hin
        simp [detailFor, hp2, stamp, wrapInt_of_inInt64 hin]
    · intro hin
      change t1 = _
      rw [htotal]
      exact wrapInt_of_inInt64 hin

/-- C3 at a concrete cart: 3 of product 1 and then 2 more. -/
theorem CreateTransaction_result_witness :
    List.Forall₂
        (fun (item : CheckoutItem) (d : TransactionDetail) =>
          ∃ p, exampleDB.products item.ProductID = some p ∧
          d = { TransactionID := 1, ProductID := item.ProductID, ProductName := p.name,
                Quantity := item.Quantity,
                Subtotal := wrapInt (item.Quantity * p.price) } ∧
          (InInt64 (item.Quantity * p.price) → d.Subtotal = item.Quantity * p.price))
        [(⟨1, 3⟩ : CheckoutItem), ⟨1, 2⟩] [⟨1, 1, "A", 3, 30⟩, ⟨1, 1, "A", 2, 20⟩] ∧
      (50 : Int) = wrapInt ([(⟨1, 1, "A", 3, 30⟩ : TransactionDetail),
        ⟨1, 1, "A", 2, 20⟩].map fun d => d.Subtotal).sum ∧
      (InInt64 ([(⟨1, 1, "A", 3, 30⟩ : TransactionDetail),
          ⟨1, 1, "A", 2, 20⟩].map fun d => d.Subtotal).sum →
        (50 : Int) = ([(⟨1, 1, "A", 3, 30⟩ : TransactionDetail),
          ⟨1, 1, "A", 2, 20⟩].map fun d => d.Subtotal).sum) ∧
      (CreateTransaction exampleDB reliable 100 [⟨1, 3⟩, ⟨1, 2⟩]).1.transactions =
        exampleDB.transactions ++ [{ id := 1, total_amount := 50, created_at := 100 }] ∧
      (CreateTransaction exampleDB reliable 100 [⟨1, 3⟩, ⟨1, 2⟩]).1.transaction_details =
        exampleDB.transaction_details ++
          [(⟨1, 1, "A", 3, 30⟩ : TransactionDetail), ⟨1, 1, "A", 2, 20⟩].map detailRow :=
  CreateTransaction_result exampleDB reliable 100 [⟨1, 3⟩, ⟨1, 2⟩]
    { ID := 1, TotalAmount := 50, Details := [⟨1, 1, "A", 3, 30⟩, ⟨1, 1, "A", 2, 20⟩] } rfl

/-- C4. Stock never goes negative: from a store whose stocks are all
non-negative, `CreateTransaction` with any cart (any product ids, any integer
quantities, whether it succeeds or fails, whatever the store refuses) leads to
a store whose stocks are all non-negative, and so does every sequence of
checkouts. -/
theorem stock_never_negative (db : DB) (h : NonNegStock db) :
    (∀ faults now items, NonNegStock (CreateTransaction db faults now items).1) ∧
      ∀ calls, NonNegStock (runCheckouts db calls) := by
  have single : ∀ (db : DB), NonNegStock db →
      ∀ faults now items, NonNegStock (CreateTransaction db faults now items).1 := by
    intro db h faults now items
    rcases CreateTransaction_cases db faults now items with
      ⟨db1, e1, hres, hp, _, _⟩ | ⟨tx0, t1, d1, db1, hloop, hres, hprod, _, _⟩
    · rw [hres]
      intro pid p hpid
      exact h pid p (by rw [← hp]; exact hpid)
    · rw [hres]
      have hinv := processItems_nonneg items (startTx db faults) 0 [] h
      rw [hloop] at hinv
      intro pid p hpid
      exact hinv pid p (by rw [← hprod]; exact hpid)
  refine ⟨single db h, ?_⟩
  intro calls
  induction calls generalizing db with
  | nil => exact h
  | cons c rest ih => exact ih _ (single db h c.1 c.2.1 c.2.2)

/-- C4 at a concrete store: product A with stock 5. -/
theorem stock_never_negative_witness :
    (∀ faults now items, NonNegStock (CreateTransaction exampleDB faults now items).1) ∧
      ∀ calls, NonNegStock (runCheckouts exampleDB calls) :=
  stock_never_negative exampleDB (by
    intro pid p hp
    by_cases h1 : pid = 1
    · subst h1
      simp only [exampleDB, if_true, Option.some.injEq] at hp
      subst hp
      decide
    · simp [exampleDB, h1] at hp)

/-- C5 as stated fails in one point: the error does not carry the product's id.
The same product A (stock 5) stored under id 1 and under id 2 gives, for a
request of 10, the same error value and the same message: it names the product
and gives the available and requested amounts. -/
theorem insufficient_stock_error_has_no_id :
    (CreateTransaction exampleDB reliable 100 [⟨1, 10⟩]).2 =
        .error (.stockNotEnough "A" 5 10) ∧
      (CreateTransaction exampleDB2 reliable 100 [⟨2, 10⟩]).2 =
        .error (.stockNotEnough "A" 5 10) ∧
      (Error.stockNotEnough "A" 5 10).Message =
        "stock not enough for product A (available: 5, requested: 10)" :=
  ⟨rfl, rfl, by decide⟩

/-- C5, amended. When the items `pre` before `item` in the cart pass (a checkout
of `pre` alone succeeds), the product of `item` exists, and its stock minus
the quantities `pre` requested for it is less than the quantity of `item`,
then `CreateTransaction` on the whole cart fails with the stock-not-enough
error carrying the product's name, that available stock and the requested
quantity, and the store is left as it was. The store answers every
statement. -/
theorem insufficient_stock_error (db : DB) (now0 now : Int) (pre post : List CheckoutItem)
    (item : CheckoutItem) (p : ProductRow)
    (hpre : ∃ t, (CreateTransaction db reliable now0 pre).2 = .ok t)
    (hp : db.products item.ProductID = some p)
    (hlt : p.stock - requested item.ProductID pre < item.Quantity) :
    CreateTransaction db reliable now (pre ++ item :: post) =
      (db, .error (.stockNotEnough p.name (p.stock - requested item.ProductID pre)
        item.Quantity)) := by
  rcases processItems_cases (startTx db reliable) 0 [] pre with
    ⟨tx1, e1, h1⟩ | ⟨tx1, t1, d1, h1⟩
  · obtain ⟨t, ht⟩ := hpre
    rw [CreateTransaction_of_loop_error now0 rfl h1] at ht
    simp at ht
  · obtain ⟨_, hf1, _, _, _, hstock, _⟩ := processItems_ok pre _ _ _ _ _ _ h1
    have hstock := hstock item.ProductID
    have hp2 : (startTx db reliable).work.products item.ProductID = some p := hp
    simp only [deductStock, hp2] at hstock
    have ha : tx1.answer = none := answer_of_reliable hf1
    have hloop : processItems (startTx db reliable) 0 [] (pre ++ item :: post) =
        (tx1.next, .error (.stockNotEnough p.name (p.stock - requested item.ProductID pre)
          item.Quantity)) := by
      rw [processItems_append, h1]
      exact processItems_cons_short ha hstock hlt t1 d1 post
    exact CreateTransaction_of_loop_error now rfl hloop

/-- C5 at the example of the specification: product A costs 10 and has stock 5;
a checkout of 3 succeeds with total 30 and leaves stock 2; in the store it
leaves, a checkout of 10 fails with available 2, requested 10, and the stock
stays 2. -/
theorem insufficient_stock_error_witness :
    (CreateTransaction exampleDB reliable 100 [⟨1, 3⟩]).2 =
        .ok { ID := 1, TotalAmount := 30, Details := [⟨1, 1, "A", 3, 30⟩] } ∧
      (CreateTransaction exampleDB reliable 100 [⟨1, 3⟩]).1.products 1 =
        some { name := "A", price := 10, stock := 2 } ∧
      (CreateTransaction (CreateTransaction exampleDB reliable 100 [⟨1, 3⟩]).1 reliable 200
          [⟨1, 10⟩]).2 = .error (.stockNotEnough "A" 2 10) ∧
      (CreateTransaction (CreateTransaction exampleDB reliable 100 [⟨1, 3⟩]).1 reliable 200
          [⟨1, 10⟩]).1.products 1 = some { name := "A", price := 10, stock := 2 } :=
  have h := insufficient_stock_error (CreateTransaction exampleDB reliable 100 [⟨1, 3⟩]).1
    200 200 [] [] ⟨1, 10⟩ { name := "A", price := 10, stock := 2 } ⟨_, rfl⟩ rfl (by decide)
  ⟨rfl, rfl, (congrArg Prod.snd h).trans rfl, (congrArg (fun r => r.1.products 1) h).trans rfl⟩

/-- C6 as stated fails: a cart with quantity 0 and a cart with quantity -2 are
both accepted. The first records a transaction of total 0; the second raises
the stock from 5 to 7 and records a transaction of total -20. -/
theorem nonpositive_quantity_accepted :
    (CreateTransaction exampleDB reliable 100 [⟨1, 0⟩]).2 =
        .ok { ID := 1, TotalAmount := 0, Details := [⟨1, 1, "A", 0, 0⟩] } ∧
      (CreateTransaction exampleDB reliable 100 [⟨1, 0⟩]).1.transactions = [⟨1, 0, 100⟩] ∧
      (CreateTransaction exampleDB reliable 100 [⟨1, -2⟩]).2 =
        .ok { ID := 1, TotalAmount := -20, Details := [⟨1, 1, "A", -2, -20⟩] } ∧
      (CreateTransaction exampleDB reliable 100 [⟨1, -2⟩]).1.products 1 =
        some { name := "A", price := 10, stock := 7 } ∧
      (CreateTransaction exampleDB reliable 100 [⟨1, -2⟩]).1.transactions = [⟨1, -20, 100⟩] :=
  ⟨rfl, rfl, rfl, rfl, rfl⟩

/-- C6, amended. `CreateTransaction` does not look at the sign of a quantity.
On a store that answers, it returns an error exactly when some item of the
cart, at its place, references a product that does not exist or asks for more
than the product's stock minus what the earlier items of the cart requested
for it; when it returns an error, no product changes and no row is recorded;
and on a store of non-negative stocks a cart of existing products whose
quantities are all zero or negative is accepted. -/
theorem CreateTransaction_error_exactly (db : DB) (now : Int) (items : List CheckoutItem) :
    ((∃ e, (CreateTransaction db reliable now items).2 = .error e) ↔
        ∃ pre item post, items = pre ++ item :: post ∧
          (db.products item.ProductID = none ∨
            ∃ p, db.products item.ProductID = some p ∧
              p.stock - requested item.ProductID pre < item.Quantity)) ∧
      ((∃ e, (CreateTransaction db reliable now items).2 = .error e) →
        (∀ pid, (CreateTransaction db reliable now items).1.products pid = db.products pid) ∧
          (CreateTransaction db reliable now items).1.transactions = db.transactions ∧
          (CreateTransaction db reliable now items).1.transaction_details =
            db.transaction_details) ∧
      (NonNegStock db → (∀ item ∈ items, item.Quantity ≤ 0) →
        (∀ item ∈ items, ∃ p, db.products item.ProductID = some p) →
        ∃ t, (CreateTransaction db reliable now items).2 = .ok t) := by
  refine ⟨?_, ?_, ?_⟩
  · rw [CreateTransaction_error_iff]
    constructor
    · rintro ⟨pre, item, post, hsplit, href⟩
      refine ⟨pre, item, post, hsplit, ?_⟩
      cases hp : db.products item.ProductID with
      | none => exact Or.inl rfl
      | some p =>
        simp only [Refused, hp] at href
        exact Or.inr ⟨p, rfl, href⟩
    · rintro ⟨pre, item, post, hsplit, hnone | ⟨p, hp, hlt⟩⟩
      · exact ⟨pre, item, post, hsplit, by simp [Refused, hnone]⟩
      · exact ⟨pre, item, post, hsplit, by simpa [Refused, hp] using hlt⟩
  · rintro ⟨e, he⟩
    rcases CreateTransaction_cases db reliable now items with
      ⟨db1, e1, hres, hp, ht, hd⟩ | ⟨tx0, t1, d1, db1, _, hres, _⟩
    · rw [hres]
      exact ⟨fun pid => congrFun hp pid, ht, hd⟩
    · rw [hres] at he
      simp at he
  · intro hnn hq hex
    rcases processItems_cases (startTx db reliable) 0 [] items with
      ⟨tx1, e1, h1⟩ | ⟨tx1, t1, d1, h1⟩
    · exfalso
      have herr : ∃ e, (CreateTransaction db reliable now items).2 = .error e :=
        ⟨e1, by rw [CreateTransaction_of_loop_error now rfl h1]⟩
      obtain ⟨pre, item, post, hsplit, href⟩ := (CreateTransaction_error_iff db now items).1 herr
      have hmem : item ∈ items := by rw [hsplit]; simp
      obtain ⟨p, hp⟩ := hex item hmem
      simp only [Refused, hp] at href
      have h0 := hnn _ p hp
      have h1 := hq item hmem
      have h2 : requested item.ProductID pre ≤ 0 :=
        requested_nonpos _ pre fun x hx => hq x (by rw [hsplit]; simp [hx])
      linarith
    · obtain ⟨db1, hres, _⟩ := CreateTransaction_of_loop_ok now h1
      rw [hres]
      exact ⟨_, rfl⟩


/-! ## Report: the properties -/

/-- C7 as stated fails: the window is not half-open. With one sale of 30 made
at instant 10 and the window from 0 to 10, the summary counts the sale made
exactly at the end of the window (revenue 30, one transaction), while the
half-open window holds no transaction. -/
theorem window_end_is_counted :
    GetSalesSummary ⟨ledgerDB.handle⟩ exampleClock (some 0) (some 10) =
        .ok ⟨30, 1, some ⟨"A", 3⟩⟩ ∧
      ((specHalfOpenWindow ledgerDB 0 10).map fun t => t.total_amount).sum = 0 ∧
      (specHalfOpenWindow ledgerDB 0 10).length = 0 :=
  ⟨rfl, by decide, by decide⟩

/-- C7, amended. For every ledger and every explicit window, `GetSalesSummary`
succeeds with `TotalRevenue` the sum of `total_amount` over exactly the
transactions with `startDate <= created_at <= endDate` (closed at both ends,
as `BETWEEN` is) and `TotalTransaksi` the number of those transactions. -/
theorem GetSalesSummary_closed_window (db : DB) (clock : Clock) (startDate endDate : Int) :
    ∃ best, GetSalesSummary ⟨db.handle⟩ clock (some startDate) (some endDate) =
      .ok ⟨((db.transactions.filter fun t =>
                decide (startDate ≤ t.created_at) && decide (t.created_at ≤ endDate)).map
              fun t => t.total_amount).sum,
            ((db.transactions.filter fun t =>
                decide (startDate ≤ t.created_at) && decide (t.created_at ≤ endDate)).length : Int),
            best⟩ :=
  ⟨_, GetSalesSummary_handle db clock (some startDate) (some endDate)⟩

/-- C8 as stated fails at the end bound: the window from 0 to 20, read
half-open as the specification reads it, holds no transaction of the ledger
whose only sale was made at instant 20, yet the summary is not the zero
summary: the sale is counted (revenue 30, one transaction, best seller A). -/
theorem empty_half_open_window_not_zero :
    specWindowEmpty ledgerDB2 0 20 ∧
      GetSalesSummary ⟨ledgerDB2.handle⟩ exampleClock (some 0) (some 20) =
        .ok ⟨30, 1, some ⟨"A", 3⟩⟩ := by
  refine ⟨?_, rfl⟩
  intro t ht
  simp only [ledgerDB2, List.mem_singleton] at ht
  subst ht
  decide

/-- C8, amended. An empty window is not an error: when no transaction of the
store was created within the bounds the call uses, both bounds included (the
given bounds, or today's midnight and the midnight after when one is nil),
`GetSalesSummary` on a store that answers both statements returns no error
and the summary with revenue 0, count 0 and no best seller. -/
theorem GetSalesSummary_empty_window (db : DB) (clock : Clock) (startDate endDate : Option Int)
    (h : ∀ t ∈ db.transactions,
      ¬ ((reportWindow clock startDate endDate).1 ≤ t.created_at ∧
          t.created_at ≤ (reportWindow clock startDate endDate).2)) :
    GetSalesSummary ⟨db.handle⟩ clock startDate endDate = .ok ⟨0, 0, none⟩ := by
  rw [GetSalesSummary_handle, baseQuery_eq, closedWindow_eq_nil db _ _ h]
  simp [bestSellerQuery, bestSellerJoin_eq_nil db _ _ h, groupByName, orderByQtyDesc]

/-- C8 at a concrete ledger: the only sale was made at instant 10, the window
runs from 11 to 20. -/
theorem GetSalesSummary_empty_window_witness :
    GetSalesSummary ⟨ledgerDB.handle⟩ exampleClock (some 11) (some 20) = .ok ⟨0, 0, none⟩ :=
  GetSalesSummary_empty_window ledgerDB exampleClock (some 11) (some 20) (by
    intro t ht
    simp only [ledgerDB, List.mem_singleton] at ht
    subst ht
    decide)

/-- C9 as stated fails: the groups are product names, not product identities.
Products 1 and 2 are both named Kopi and sold 3 each, product 3 (Teh) sold 5.
By identity the best seller is product 3 with 5; the summary names Kopi
with 6. -/
theorem best_seller_groups_by_name :
    GetSalesSummary ⟨sameNameDB.handle⟩ exampleClock (some 0) (some 10) =
        .ok ⟨91, 1, some ⟨"Kopi", 6⟩⟩ ∧
      specSoldByProduct sameNameDB 0 10 1 = 3 ∧
      specSoldByProduct sameNameDB 0 10 2 = 3 ∧
      specSoldByProduct sameNameDB 0 10 3 = 5 ∧
      ∀ pid, specSoldByProduct sameNameDB 0 10 pid ≤ 5 := by
  refine ⟨rfl, by decide, by decide, by decide, ?_⟩
  intro pid
  simp [specSoldByProduct, sameNameDB, List.filter_cons]
  split_ifs <;> first | omega | simp

/-- C9, amended. When the join of details, products and transactions of the
window is not empty, `GetSalesSummary` returns a best seller whose name is a
product name of the join, whose quantity is the summed detail quantity of
the join rows carrying that name, and no product name of the join has a
greater sum: the maximum is over product names. -/
theorem GetSalesSummary_best_seller (db : DB) (clock : Clock) (startDate endDate : Option Int)
    (h : bestSellerJoin db (reportWindow clock startDate endDate).1
      (reportWindow clock startDate endDate).2 ≠ []) :
    ∃ revenue count best,
      GetSalesSummary ⟨db.handle⟩ clock startDate endDate = .ok ⟨revenue, count, some best⟩ ∧
      (∃ r ∈ bestSellerJoin db (reportWindow clock startDate endDate).1
          (reportWindow clock startDate endDate).2, r.1 = best.Name) ∧
      best.Quantity = soldByName (bestSellerJoin db (reportWindow clock startDate endDate).1
          (reportWindow clock startDate endDate).2) best.Name ∧
      ∀ r ∈ bestSellerJoin db (reportWindow clock startDate endDate).1
          (reportWindow clock startDate endDate).2,
        soldByName (bestSellerJoin db (reportWindow clock startDate endDate).1
          (reportWindow clock startDate endDate).2) r.1 ≤ best.Quantity := by
  obtain ⟨g, hq, hname, hsum, hmax⟩ := groupOrderLimit_spec _ h
  have hres := GetSalesSummary_handle db clock startDate endDate
  simp only [bestSellerQuery, hq, List.head?_cons, Option.map_some'] at hres
  exact ⟨_, _, ⟨g.1, g.2⟩, hres, hname, hsum, hmax⟩

/-- C9 at the ledger with two products named Kopi: the best seller is Kopi. -/
theorem GetSalesSummary_best_seller_witness :
    ∃ revenue count best,
      GetSalesSummary ⟨sameNameDB.handle⟩ exampleClock (some 0) (some 10) =
        .ok ⟨revenue, count, some best⟩ ∧
      (∃ r ∈ bestSellerJoin sameNameDB 0 10, r.1 = best.Name) ∧
      best.Quantity = soldByName (bestSellerJoin sameNameDB 0 10) best.Name ∧
      ∀ r ∈ bestSellerJoin sameNameDB 0 10,
        soldByName (bestSellerJoin sameNameDB 0 10) r.1 ≤ best.Quantity :=
  GetSalesSummary_best_seller sameNameDB exampleClock (some 0) (some 10) (by decide)

/-- C10 fails on the code: when the best-seller statement fails in the driver
(here a reset connection) the destinations stay invalid, the null test comes
before the error test, and `GetSalesSummary` returns a summary without best
seller and no error. The same failure of the first statement is returned as
the error. -/
theorem GetSalesSummary_swallows_store_error :
    GetSalesSummary ⟨brokenBestSellerDB⟩ exampleClock (some 0) (some 10) =
        .ok ⟨30, 1, none⟩ ∧
      GetSalesSummary ⟨brokenBaseDB⟩ exampleClock (some 0) (some 10) =
        .error (.driver "connection reset by peer") :=
  ⟨rfl, rfl⟩


end Kasir
